import Mathlib

/-!
# sensorfw: `adaptors/magnetometeradaptor/magnetometeradaptor.cpp`

A shallow embedding of `MagnetometerAdaptor` (ak8974 / ak8975 magnetometer
adaptor).  Calls into collaborators that live outside the file (the
`SysfsAdaptor` base class, the ring buffer, the logger, `read(2)`, the clock)
are recorded, in program order, as a list of `Event`s; inputs obtained from
the environment (configuration values, file existence, the outcome of the
device read, the bytes previously on the stack, the clock value) are explicit
arguments.
-/

namespace Sensorfw

/-! ## Machine integers -/

/-- Number of values of a 32-bit `unsigned int`. -/
def UINT_RANGE : Nat := 4294967296

/-- Conversion of a signed value to `unsigned int` (reduction modulo 2^32). -/
def toUnsignedInt (i : Int) : Nat := (i % 4294967296).toNat

/-- Subtraction on `unsigned int` (wraps modulo 2^32). -/
def uintSub (a b : Nat) : Nat := (a % UINT_RANGE + UINT_RANGE - b % UINT_RANGE) % UINT_RANGE

/-- Reinterpretation of a 16-bit word as `__s16` (two's complement). -/
def toS16 (w : Nat) : Int := if w % 65536 < 32768 then (w % 65536 : Nat) else ((w % 65536 : Nat) : Int) - 65536

/-! ## QString, configuration, filesystem -/

/-- The test `sub` occurs somewhere in `s`, on character lists. -/
def containsChars (s sub : List Char) : Bool :=
  match s with
  | [] => sub.isEmpty
  | c :: cs => sub.isPrefixOf (c :: cs) || containsChars cs sub

/-- `QString::contains(const QString&)`: substring test. -/
def QString.contains (s sub : String) : Bool := containsChars s.data sub.data

/-- `QString::isEmpty()`. -/
def QString.isEmpty (s : String) : Bool := decide (s = "")

/-- Modelled from the spec: the configuration lookup service
(`Config::configuration()`), a string-keyed table. -/
abbrev Config := String → Option String

/-- Modelled from the spec: `Config::value<QString>(key)`, which is not part of
the file; an absent key is treated as the empty string. -/
def Config.value (c : Config) (key : String) : String := (c key).getD ""

/-! ## Data types -/

/-- The driver record `struct ak8974_data`. -/
structure ak8974_data where
  x : Int
  y : Int
  z : Int
  valid : Nat
  deriving DecidableEq, Repr

/-- The size `sizeof(struct ak8974_data)`: four 16-bit members. -/
def sizeofMagData : Nat := 8

/-- The published sample `TimedXyzData`. -/
structure TimedXyzData where
  timestamp_ : Nat
  x_ : Int
  y_ : Int
  z_ : Int
  deriving DecidableEq, Repr

/-- The constructor arguments `DataRange(min, max, resolution)`. -/
structure DataRange where
  min : Int
  max : Int
  resolution : Int
  deriving DecidableEq, Repr

/-- Modelled from the spec: `DeviceAdaptorRingBuffer<TimedXyzData>`, which is
not part of the file: a fixed pool of slots and a commit sequence counter. -/
structure DeviceAdaptorRingBuffer where
  bufferSize_ : Nat
  buffer_ : List TimedXyzData
  writeCount_ : Nat
  deriving DecidableEq, Repr

/-- Modelled from the spec: construction of the ring buffer with a given
capacity; all slots start zeroed. -/
def DeviceAdaptorRingBuffer.create (size : Nat) : DeviceAdaptorRingBuffer :=
  { bufferSize_ := size, buffer_ := List.replicate size ⟨0, 0, 0, 0⟩, writeCount_ := 0 }

/-- Modelled from the spec: `nextSlot()`, the index of the slot written next
(never blocks, always succeeds). -/
def DeviceAdaptorRingBuffer.nextSlot (b : DeviceAdaptorRingBuffer) : Nat :=
  b.writeCount_ % b.bufferSize_

/-- A store through the pointer returned by `nextSlot()`. -/
def DeviceAdaptorRingBuffer.store (b : DeviceAdaptorRingBuffer) (slot : Nat) (s : TimedXyzData) :
    DeviceAdaptorRingBuffer :=
  { b with buffer_ := b.buffer_.set slot s }

/-- Modelled from the spec: `commit()` advances the commit sequence. -/
def DeviceAdaptorRingBuffer.commit (b : DeviceAdaptorRingBuffer) : DeviceAdaptorRingBuffer :=
  { b with writeCount_ := b.writeCount_ + 1 }

/-- Calls to collaborators, in the order the program makes them. -/
inductive Event where
  /-- The warning `"Input device not found."` of the constructor -/
  | logNotFound
  /-- The debug line `"Detected magnetometer driver at "` of the constructor -/
  | logDetected (path : String)
  | addPath (path : String) (id : Int)
  /-- The allocation `new DeviceAdaptorRingBuffer<TimedXyzData>(size)` -/
  | newRingBuffer (size : Nat)
  | addAdaptedSensor (name description : String)
  | introduceAvailableDataRange (r : DataRange)
  | setDescription (text : String)
  | introduceAvailableInterval (r : DataRange)
  | setDefaultInterval (value : Nat)
  /-- The system call `read(fd, &mag_data, count)` -/
  | read (fd : Int) (count : Nat)
  /-- The warning `"read n bytes out of expected ..."` of `processSample` -/
  | logShortRead (bytesRead : Nat)
  /-- The debug line `"Invalid sample received from magnetometer"` -/
  | logInvalidSample
  /-- The trace line `"Magnetometer reading: x, y, z"` -/
  | logReading (x y z : Int)
  | nextSlot
  | getTimeStamp
  | storeTimestamp (t : Nat)
  | storeX (v : Int)
  | storeY (v : Int)
  | storeZ (v : Int)
  | commit
  | wakeUpReaders
  /-- The base-class call `SysfsAdaptor::setInterval(value, sessionId)` -/
  | sysfsSetInterval (value : Nat) (sessionId : Int)
  deriving DecidableEq, Repr

/-- The fields of `MagnetometerAdaptor`; `magnetometerBuffer_` is a pointer,
`none` when the constructor never assigned it. -/
structure MagnetometerAdaptor where
  driverHandle_ : String
  magnetometerBuffer_ : Option DeviceAdaptorRingBuffer
  overflowLimit_ : Int
  deriving DecidableEq, Repr

/-! ## The device read -/

/-- Outcome of `read(fd, &mag_data, sizeof(mag_data))`: failure (return value
-1, nothing stored) or the bytes the device delivered. -/
inductive ReadResult where
  | failed
  | delivered (bytes : List Nat)
  deriving DecidableEq, Repr

/-- The bytes actually stored by the read: at most `sizeof(mag_data)`. -/
def ReadResult.stored : ReadResult → List Nat
  | .failed => []
  | .delivered bytes => bytes.take sizeofMagData

/-- The return value of `read`, an `ssize_t`. -/
def ReadResult.returnValue : ReadResult → Int
  | .failed => -1
  | .delivered bytes => ((bytes.take sizeofMagData).length : Nat)

/-- Memory of the local `mag_data` after the read: the stored bytes overwrite
the leading bytes of whatever the stack held before. -/
def readInto (stack : List Nat) (r : ReadResult) : List Nat :=
  r.stored ++ stack.drop r.stored.length

/-- One byte of the record memory. -/
def byteAt (mem : List Nat) (i : Nat) : Nat := mem.getD i 0 % 256

/-- A 16-bit member at byte offset `off`, in the platform's byte order. -/
def wordAt (bigEndian : Bool) (mem : List Nat) (off : Nat) : Nat :=
  if bigEndian then 256 * byteAt mem off + byteAt mem (off + 1)
  else byteAt mem off + 256 * byteAt mem (off + 1)

/-- The members of `mag_data` as read back from its memory. -/
def loadMagData (bigEndian : Bool) (mem : List Nat) : ak8974_data :=
  { x := toS16 (wordAt bigEndian mem 0)
    y := toS16 (wordAt bigEndian mem 2)
    z := toS16 (wordAt bigEndian mem 4)
    valid := wordAt bigEndian mem 6 }

/-- The two bytes of a 16-bit word in the platform's byte order. -/
def wordBytes (bigEndian : Bool) (w : Nat) : List Nat :=
  if bigEndian then [w / 256 % 256, w % 256] else [w % 256, w / 256 % 256]

/-- Object representation of a `struct ak8974_data`: the 8 bytes a driver
delivers for the record. -/
def recordBytes (bigEndian : Bool) (d : ak8974_data) : List Nat :=
  wordBytes bigEndian (d.x % 65536).toNat ++ wordBytes bigEndian (d.y % 65536).toNat ++
    wordBytes bigEndian (d.z % 65536).toNat ++ wordBytes bigEndian (d.valid % 65536)

/-! ## MagnetometerAdaptor -/

/-- `MagnetometerAdaptor::getDriverHandle()`. -/
def MagnetometerAdaptor.getDriverHandle (cfg : Config) (fileExists : String → Bool) : String :=
  let magFile := cfg.value "mag_ak8974_dev_path"
  if !QString.isEmpty magFile && fileExists magFile then magFile
  else
    let magFile := cfg.value "mag_ak8975_dev_path"
    if !QString.isEmpty magFile && fileExists magFile then magFile
    else ""

/-- The array `ranges` of the constructor. -/
def ranges : List Nat := [25, 50, 100, 200, 250, 500, 1000]

/-- The constructor `MagnetometerAdaptor::MagnetometerAdaptor`, after
`getDriverHandle()` has returned `driverHandle`. -/
def MagnetometerAdaptor.ctorWith (driverHandle : String) : MagnetometerAdaptor × List Event :=
  let resolved : Option DeviceAdaptorRingBuffer × List Event :=
    if QString.isEmpty driverHandle then (none, [Event.logNotFound])
    else
      (some (DeviceAdaptorRingBuffer.create 1),
        [Event.logDetected driverHandle, Event.addPath driverHandle 0, Event.newRingBuffer 1,
          Event.addAdaptedSensor "magnetometer" "Internal magnetometer coordinates"])
  let is13bitVersion := QString.contains driverHandle "8975"
  let limit : Int := if is13bitVersion then 4096 else 2048
  ({ driverHandle_ := driverHandle
     magnetometerBuffer_ := resolved.1
     overflowLimit_ := if is13bitVersion then 8000 else 4000 },
    resolved.2 ++ [Event.introduceAvailableDataRange ⟨-limit, limit, 1⟩] ++
      [Event.setDescription "Input device Magnetometer adaptor (ak897x)"] ++
      ranges.map (fun r => Event.introduceAvailableInterval ⟨r, r, 0⟩) ++
      [Event.setDefaultInterval 1000])

/-- The constructor `MagnetometerAdaptor::MagnetometerAdaptor(id)`. -/
def MagnetometerAdaptor.ctor (cfg : Config) (fileExists : String → Bool) :
    MagnetometerAdaptor × List Event :=
  MagnetometerAdaptor.ctorWith (MagnetometerAdaptor.getDriverHandle cfg fileExists)

/-- `MagnetometerAdaptor::processSample(pathId, fd)`.  The function has no test
of `magnetometerBuffer_`: the calls of lines 113-121 are made on every
invocation.  When the pointer was never assigned they go through an
indeterminate pointer and the behaviour of the code is undefined; the second
component is then `none`, and nothing is derived about such a call. -/
def MagnetometerAdaptor.processSample (bigEndian : Bool) (a : MagnetometerAdaptor)
    (_pathId fd : Int) (r : ReadResult) (stack : List Nat) (now : Nat) :
    List Event × Option MagnetometerAdaptor :=
  let mag_data := loadMagData bigEndian (readInto stack r)
  let bytesRead := toUnsignedInt r.returnValue
  let sample : TimedXyzData := { timestamp_ := now, x_ := mag_data.x, y_ := mag_data.y, z_ := mag_data.z }
  ([Event.read fd sizeofMagData] ++
      (if bytesRead < sizeofMagData then [Event.logShortRead bytesRead] else []) ++
      (if mag_data.valid = 0 then [Event.logInvalidSample] else []) ++
      [Event.logReading mag_data.x mag_data.y mag_data.z] ++
      [Event.nextSlot, Event.getTimeStamp, Event.storeTimestamp now, Event.storeX mag_data.x,
        Event.storeY mag_data.y, Event.storeZ mag_data.z, Event.commit, Event.wakeUpReaders],
    match a.magnetometerBuffer_ with
    | none => none
    | some buf => some { a with magnetometerBuffer_ := some ((buf.store buf.nextSlot sample).commit) })

/-- `MagnetometerAdaptor::setInterval(value, sessionId)`; `sysfsSetInterval`
is the result of the base-class call it forwards to. -/
def MagnetometerAdaptor.setInterval (sysfsSetInterval : Nat → Int → Bool) (a : MagnetometerAdaptor)
    (value : Nat) (sessionId : Int) : Bool × List Event :=
  if QString.contains a.driverHandle_ "8975" then
    let forwarded := if value > 16 then uintSub value 16 else 0
    (sysfsSetInterval forwarded sessionId, [Event.sysfsSetInterval forwarded sessionId])
  else
    (sysfsSetInterval value sessionId, [Event.sysfsSetInterval value sessionId])

/-- `MagnetometerAdaptor::setOverflowLimit(limit)`. -/
def MagnetometerAdaptor.setOverflowLimit (a : MagnetometerAdaptor) (limit : Int) : MagnetometerAdaptor :=
  { a with overflowLimit_ := limit }

/-- `MagnetometerAdaptor::overflowLimit()`. -/
def MagnetometerAdaptor.overflowLimit (a : MagnetometerAdaptor) : Int := a.overflowLimit_


/-! ## Observations on event traces -/

/-- The data ranges advertised by a trace (`introduceAvailableDataRange` calls). -/
def advertisedDataRanges (es : List Event) : List DataRange :=
  es.filterMap fun e => match e with
    | Event.introduceAvailableDataRange r => some r
    | _ => none

/-- The intervals advertised by a trace (`introduceAvailableInterval` calls). -/
def advertisedIntervals (es : List Event) : List DataRange :=
  es.filterMap fun e => match e with
    | Event.introduceAvailableInterval r => some r
    | _ => none

/-- The default intervals set by a trace (`setDefaultInterval` calls). -/
def defaultIntervals (es : List Event) : List Nat :=
  es.filterMap fun e => match e with
    | Event.setDefaultInterval v => some v
    | _ => none

/-- The values forwarded to the base poller by a trace, with their session. -/
def forwardedIntervals (es : List Event) : List (Nat × Int) :=
  es.filterMap fun e => match e with
    | Event.sysfsSetInterval v s => some (v, s)
    | _ => none

/-- Specification of the resolver: the first candidate that is non-empty and
exists, the empty string when there is none. -/
def spec_firstExistingPath (fileExists : String → Bool) (candidates : List String) : String :=
  (candidates.find? fun p => decide (p ≠ "") && fileExists p).getD ""

/-- A configuration that defines only `mag_ak8975_dev_path`. -/
def cfg8975 : Config := fun k => if k = "mag_ak8975_dev_path" then some "/dev/ak8975" else none

/-- A configuration that defines only `mag_ak8974_dev_path`. -/
def cfg8974 : Config := fun k => if k = "mag_ak8974_dev_path" then some "/dev/ak8974n0" else none

/-- The empty configuration: no device path is configured. -/
def cfgNone : Config := fun _ => none

/-- A base poller that accepts every interval. -/
def sysfsAccept : Nat → Int → Bool := fun _ _ => true

/-- Log output is not part of the publication protocol. -/
def Event.isLog : Event → Bool
  | .logNotFound => true
  | .logDetected _ => true
  | .logShortRead _ => true
  | .logInvalidSample => true
  | .logReading _ _ _ => true
  | _ => false

/-- Events that touch the ring buffer: slot acquisition, stores, commit and
reader wake-up. -/
def Event.isPublication : Event → Bool
  | .nextSlot => true
  | .storeTimestamp _ => true
  | .storeX _ => true
  | .storeY _ => true
  | .storeZ _ => true
  | .commit => true
  | .wakeUpReaders => true
  | _ => false

/-- Events that bind the adaptor to a device: path, buffer and sensor
registration. -/
def Event.isRegistration : Event → Bool
  | .addPath _ _ => true
  | .newRingBuffer _ => true
  | .addAdaptedSensor _ _ => true
  | _ => false

/-- The short-read warnings of a trace, with the byte count they report. -/
def shortReadWarnings (es : List Event) : List Nat :=
  es.filterMap fun e => match e with
    | Event.logShortRead n => some n
    | _ => none

/-- The adaptor state Active: a device path is bound. -/
def MagnetometerAdaptor.isActive (a : MagnetometerAdaptor) : Bool := !QString.isEmpty a.driverHandle_

/-- The relation between the fields that construction establishes: a buffer
(with as many slots as its capacity, at least one) exists exactly when a device
path is bound. -/
def MagnetometerAdaptor.consistent (a : MagnetometerAdaptor) : Bool :=
  match a.magnetometerBuffer_ with
  | none => QString.isEmpty a.driverHandle_
  | some b => !QString.isEmpty a.driverHandle_ && decide (0 < b.bufferSize_) &&
      decide (b.buffer_.length = b.bufferSize_)

/-- One call on the adaptor after construction, with the inputs the environment
supplies to it. -/
inductive Op where
  | processSample (pathId fd : Int) (r : ReadResult) (stack : List Nat) (now : Nat)
  | setInterval (value : Nat) (sessionId : Int)
  | setOverflowLimit (limit : Int)
  | overflowLimit
  deriving DecidableEq, Repr

/-- The test that an operation is a `processSample` call. -/
def Op.isProcessSample : Op → Bool
  | .processSample _ _ _ _ _ => true
  | _ => false

/-- The argument of a `setOverflowLimit` call. -/
def Op.overflowLimitArg : Op → Option Int
  | .setOverflowLimit limit => some limit
  | _ => none

/-- Effect of one operation: its trace and the adaptor afterwards (`none` when
`processSample` goes through a buffer pointer that was never assigned, where
the code is undefined). -/
def step (bigEndian : Bool) (sysfs : Nat → Int → Bool) (a : MagnetometerAdaptor) :
    Op → List Event × Option MagnetometerAdaptor
  | .processSample pathId fd r stack now => a.processSample bigEndian pathId fd r stack now
  | .setInterval value sessionId => ((a.setInterval sysfs value sessionId).2, some a)
  | .setOverflowLimit limit => ([], some (a.setOverflowLimit limit))
  | .overflowLimit => ([], some a)

/-- Effect of a sequence of operations; nothing is derived past an operation
whose behaviour is undefined. -/
def run (bigEndian : Bool) (sysfs : Nat → Int → Bool) (a : MagnetometerAdaptor) :
    List Op → List Event × Option MagnetometerAdaptor
  | [] => ([], some a)
  | op :: ops =>
    match step bigEndian sysfs a op with
    | (es, none) => (es, none)
    | (es, some a') => (es ++ (run bigEndian sysfs a' ops).1, (run bigEndian sysfs a' ops).2)

/-- The call to the base poller that a `setInterval` operation makes when the
driver path does not contain "8975". -/
def Op.forwardedCall : Op → Option Event
  | .setInterval value sessionId => some (Event.sysfsSetInterval value sessionId)
  | _ => none

/-- Specification of the overflow limit after a sequence of operations: the
argument of the most recent `setOverflowLimit`, the default `d` when there was
none. -/
def spec_overflowLimitAfter (d : Int) (ops : List Op) : Int :=
  ((ops.filterMap Op.overflowLimitArg).getLast?).getD d

/-! ## Theorems -/

/-- C1: on the latency-compensated variant (driver path contains "8975"), for
every 32-bit unsigned `v`, `setInterval` forwards exactly one value to the base
poller, `v - 16` when `v > 16` and `0` otherwise, computed without wrap-around,
never negative and never above `v`, and returns the poller's result; in
particular 0 and 16 forward 0 and 17 forwards 1. -/
theorem setInterval_compensated (sysfs : Nat → Int → Bool) (a : MagnetometerAdaptor) (v : Nat)
    (s : Int) (hv : v < UINT_RANGE) (h : QString.contains a.driverHandle_ "8975" = true) :
    ∃ f : Nat, a.setInterval sysfs v s = (sysfs f s, [Event.sysfsSetInterval f s]) ∧
      f = (if v > 16 then v - 16 else 0) ∧
      (f : Int) = (if v > 16 then (v : Int) - 16 else 0) ∧ (0 : Int) ≤ f ∧ f ≤ v ∧
      a.setInterval sysfs 0 s = (sysfs 0 s, [Event.sysfsSetInterval 0 s]) ∧
      a.setInterval sysfs 16 s = (sysfs 0 s, [Event.sysfsSetInterval 0 s]) ∧
      a.setInterval sysfs 17 s = (sysfs 1 s, [Event.sysfsSetInterval 1 s]) := by
  refine ⟨if v > 16 then v - 16 else 0, ?_, rfl, ?_, ?_, ?_, ?_, ?_, ?_⟩
  · unfold MagnetometerAdaptor.setInterval
    rw [if_pos h]
    have hsub : (if v > 16 then uintSub v 16 else 0) = (if v > 16 then v - 16 else 0) := by
      unfold uintSub UINT_RANGE at *
      split
      · omega
      · rfl
    simp only [hsub]
  · split <;> omega
  · omega
  · split <;> omega
  · simp [MagnetometerAdaptor.setInterval, h]
  · simp [MagnetometerAdaptor.setInterval, h]
  · simp [MagnetometerAdaptor.setInterval, h, uintSub, UINT_RANGE]

/-- Witness for C1: the adaptor constructed on `/dev/ak8975`, request 17. -/
theorem setInterval_compensated_witness :
    ∃ f : Nat, (MagnetometerAdaptor.ctor cfg8975 fun _ => true).1.setInterval sysfsAccept 17 5 =
        (sysfsAccept f 5, [Event.sysfsSetInterval f 5]) ∧ f = 1 := by
  obtain ⟨f, h1, h2, -⟩ := setInterval_compensated sysfsAccept
    (MagnetometerAdaptor.ctor cfg8975 fun _ => true).1 17 5 (by decide) (by decide)
  exact ⟨f, h1, by simpa using h2⟩

/-- C2: on the non-compensated variant (driver path without "8975", the empty
unresolved path included), `setInterval` forwards the requested value unchanged
with the same session id, makes no other call, and returns the base poller's
result. -/
theorem setInterval_uncompensated (sysfs : Nat → Int → Bool) (a : MagnetometerAdaptor) (x : Nat)
    (s : Int) (h : QString.contains a.driverHandle_ "8975" = false) :
    a.setInterval sysfs x s = (sysfs x s, [Event.sysfsSetInterval x s]) ∧
      (a.setInterval sysfs x s).1 = sysfs x s ∧
      forwardedIntervals (a.setInterval sysfs x s).2 = [(x, s)] := by
  simp [MagnetometerAdaptor.setInterval, h, forwardedIntervals]

/-- Witness for C2: the unresolved adaptor (empty driver path), request 100. -/
theorem setInterval_uncompensated_witness :
    (MagnetometerAdaptor.ctor cfgNone fun _ => false).1.driverHandle_ = "" ∧
      forwardedIntervals ((MagnetometerAdaptor.ctor cfgNone fun _ => false).1.setInterval
        sysfsAccept 100 7).2 = [(100, 7)] :=
  ⟨by decide, (setInterval_uncompensated sysfsAccept
    (MagnetometerAdaptor.ctor cfgNone fun _ => false).1 100 7 (by decide)).2.2⟩

/-- C5: construction on a driver path `p` (empty when unresolved) advertises
exactly one data range with resolution 1: [-4096, 4096] with overflow limit
8000 when `p` contains "8975", and [-2048, 2048] with overflow limit 4000
otherwise; the mixed pairs (4096, 4000) and (2048, 8000) never occur. -/
theorem ctor_range_and_overflowLimit (p : String) (cfg : Config) (fileExists : String → Bool) :
    MagnetometerAdaptor.ctor cfg fileExists =
        MagnetometerAdaptor.ctorWith (MagnetometerAdaptor.getDriverHandle cfg fileExists) ∧
      (MagnetometerAdaptor.ctorWith p).1.driverHandle_ = p ∧
      (QString.contains p "8975" = true →
        advertisedDataRanges (MagnetometerAdaptor.ctorWith p).2 = [⟨-4096, 4096, 1⟩] ∧
          (MagnetometerAdaptor.ctorWith p).1.overflowLimit = 8000) ∧
      (QString.contains p "8975" = false →
        advertisedDataRanges (MagnetometerAdaptor.ctorWith p).2 = [⟨-2048, 2048, 1⟩] ∧
          (MagnetometerAdaptor.ctorWith p).1.overflowLimit = 4000) ∧
      ¬ (advertisedDataRanges (MagnetometerAdaptor.ctorWith p).2 = [⟨-4096, 4096, 1⟩] ∧
          (MagnetometerAdaptor.ctorWith p).1.overflowLimit = 4000) ∧
      ¬ (advertisedDataRanges (MagnetometerAdaptor.ctorWith p).2 = [⟨-2048, 2048, 1⟩] ∧
          (MagnetometerAdaptor.ctorWith p).1.overflowLimit = 8000) := by
  refine ⟨rfl, rfl, ?_, ?_, ?_, ?_⟩ <;>
    cases hc : QString.contains p "8975" <;> cases he : QString.isEmpty p <;>
    simp [MagnetometerAdaptor.ctorWith, MagnetometerAdaptor.overflowLimit, advertisedDataRanges,
      ranges, hc, he]

/-- C9: construction on any driver path advertises exactly the intervals
25, 50, 100, 200, 250, 500, 1000 in that order, each as a degenerate range with
resolution 0, and sets the default interval once, to 1000, which is one of the
advertised values. -/
theorem ctor_intervals (p : String) :
    advertisedIntervals (MagnetometerAdaptor.ctorWith p).2 =
        [⟨25, 25, 0⟩, ⟨50, 50, 0⟩, ⟨100, 100, 0⟩, ⟨200, 200, 0⟩, ⟨250, 250, 0⟩, ⟨500, 500, 0⟩,
          ⟨1000, 1000, 0⟩] ∧
      (∀ r ∈ advertisedIntervals (MagnetometerAdaptor.ctorWith p).2,
        r.min = r.max ∧ r.resolution = 0) ∧
      defaultIntervals (MagnetometerAdaptor.ctorWith p).2 = [1000] ∧
      (⟨1000, 1000, 0⟩ : DataRange) ∈ advertisedIntervals (MagnetometerAdaptor.ctorWith p).2 := by
  have h : advertisedIntervals (MagnetometerAdaptor.ctorWith p).2 =
      [⟨25, 25, 0⟩, ⟨50, 50, 0⟩, ⟨100, 100, 0⟩, ⟨200, 200, 0⟩, ⟨250, 250, 0⟩, ⟨500, 500, 0⟩,
        ⟨1000, 1000, 0⟩] := by
    cases he : QString.isEmpty p <;>
      simp [MagnetometerAdaptor.ctorWith, advertisedIntervals, ranges, he]
  refine ⟨h, ?_, ?_, ?_⟩
  · rw [h]
    intro r hr
    simp at hr
    rcases hr with rfl | rfl | rfl | rfl | rfl | rfl | rfl <;> simp
  · cases he : QString.isEmpty p <;>
      simp [MagnetometerAdaptor.ctorWith, defaultIntervals, ranges, he]
  · rw [h]
    simp

/-- C6: `getDriverHandle` returns the first of the values of
"mag_ak8974_dev_path" and "mag_ak8975_dev_path" (absent meaning empty), in that
order, that is non-empty and exists; it returns the empty string exactly when
neither is both non-empty and existing; when only the second qualifies it
returns the second, and when the first qualifies it returns the first. -/
theorem getDriverHandle_first_existing (cfg : Config) (fileExists : String → Bool) :
    MagnetometerAdaptor.getDriverHandle cfg fileExists =
        spec_firstExistingPath fileExists
          [cfg.value "mag_ak8974_dev_path", cfg.value "mag_ak8975_dev_path"] ∧
      (MagnetometerAdaptor.getDriverHandle cfg fileExists = "" ↔
        ¬ (cfg.value "mag_ak8974_dev_path" ≠ "" ∧
            fileExists (cfg.value "mag_ak8974_dev_path") = true) ∧
          ¬ (cfg.value "mag_ak8975_dev_path" ≠ "" ∧
            fileExists (cfg.value "mag_ak8975_dev_path") = true)) ∧
      (¬ (cfg.value "mag_ak8974_dev_path" ≠ "" ∧
            fileExists (cfg.value "mag_ak8974_dev_path") = true) →
        cfg.value "mag_ak8975_dev_path" ≠ "" →
        fileExists (cfg.value "mag_ak8975_dev_path") = true →
        MagnetometerAdaptor.getDriverHandle cfg fileExists = cfg.value "mag_ak8975_dev_path") ∧
      (cfg.value "mag_ak8974_dev_path" ≠ "" →
        fileExists (cfg.value "mag_ak8974_dev_path") = true →
        MagnetometerAdaptor.getDriverHandle cfg fileExists = cfg.value "mag_ak8974_dev_path") := by
  unfold MagnetometerAdaptor.getDriverHandle spec_firstExistingPath QString.isEmpty
  generalize cfg.value "mag_ak8974_dev_path" = p1
  generalize cfg.value "mag_ak8975_dev_path" = p2
  by_cases e1 : p1 = "" <;> by_cases e2 : p2 = "" <;>
    cases f1 : fileExists p1 <;> cases f2 : fileExists p2 <;>
    simp_all [List.find?]

/-- A signed 16-bit value is recovered from the two bytes of its
two's-complement word. -/
theorem toS16_bytes (x : Int) (h1 : -32768 ≤ x) (h2 : x < 32768) :
    toS16 ((x % 65536).toNat % 256 + 256 * ((x % 65536).toNat / 256 % 256)) = x ∧
      toS16 (256 * ((x % 65536).toNat / 256 % 256) + (x % 65536).toNat % 256) = x := by
  unfold toS16
  constructor <;> split <;> omega

/-- An unsigned 16-bit value is recovered from its two bytes. -/
theorem u16_bytes (v : Nat) (h : v < 65536) :
    v % 65536 % 256 + 256 * (v % 65536 / 256 % 256) = v ∧
      256 * (v % 65536 / 256 % 256) + v % 65536 % 256 = v := by
  constructor <;> omega

/-- Loading the members back from the object representation of a record
returns the record, in either byte order and whatever follows in memory. -/
theorem loadMagData_recordBytes (bigEndian : Bool) (d : ak8974_data) (rest : List Nat)
    (hx : -32768 ≤ d.x ∧ d.x < 32768) (hy : -32768 ≤ d.y ∧ d.y < 32768)
    (hz : -32768 ≤ d.z ∧ d.z < 32768) (hv : d.valid < 65536) :
    loadMagData bigEndian (recordBytes bigEndian d ++ rest) = d := by
  obtain ⟨x, y, z, v⟩ := d
  simp only at hx hy hz hv
  have ex := toS16_bytes x hx.1 hx.2
  have ey := toS16_bytes y hy.1 hy.2
  have ez := toS16_bytes z hz.1 hz.2
  have ev := u16_bytes v hv
  cases bigEndian
  · simp [loadMagData, recordBytes, wordBytes, wordAt, byteAt]
    exact ⟨ex.1, ey.1, ez.1, ev.1⟩
  · simp [loadMagData, recordBytes, wordBytes, wordAt, byteAt]
    exact ⟨ex.2, ey.2, ez.2, ev.2⟩

/-- The object representation of a record has `sizeof(mag_data)` bytes. -/
theorem recordBytes_length (bigEndian : Bool) (d : ak8974_data) :
    (recordBytes bigEndian d).length = sizeofMagData := by
  cases bigEndian <;> simp [recordBytes, wordBytes, sizeofMagData]

/-- A full read replaces the whole of `mag_data`. -/
theorem readInto_full (bigEndian : Bool) (d : ak8974_data) (stack : List Nat) :
    readInto stack (ReadResult.delivered (recordBytes bigEndian d)) =
      recordBytes bigEndian d ++ stack.drop sizeofMagData := by
  have h := recordBytes_length bigEndian d
  simp [readInto, ReadResult.stored, List.take_of_length_le (Nat.le_of_eq h), h]

/-- An Active adaptor in a consistent state owns a buffer with at least one
slot and as many slots as its capacity. -/
theorem active_has_buffer (a : MagnetometerAdaptor) (hact : a.isActive = true)
    (hcon : a.consistent = true) :
    ∃ b, a.magnetometerBuffer_ = some b ∧ 0 < b.bufferSize_ ∧ b.buffer_.length = b.bufferSize_ := by
  unfold MagnetometerAdaptor.isActive at hact
  unfold MagnetometerAdaptor.consistent at hcon
  cases hb : a.magnetometerBuffer_ with
  | none => simp [hb] at hcon; simp [hcon] at hact
  | some b =>
    simp [hb] at hcon
    exact ⟨b, rfl, hcon.1.2, hcon.2⟩

/-- The value `bytesRead` after a read that did not fail is the number of bytes
stored. -/
theorem toUnsignedInt_delivered (bytes : List Nat) :
    toUnsignedInt (ReadResult.delivered bytes).returnValue = min sizeofMagData bytes.length := by
  simp only [toUnsignedInt, ReadResult.returnValue, sizeofMagData, List.length_take]
  omega

/-- The value `bytesRead` after a failed read: -1 converted to `unsigned int`. -/
theorem toUnsignedInt_failed : toUnsignedInt ReadResult.failed.returnValue = 4294967295 := by
  decide

/-- The trace and final state of `processSample` when a buffer exists. -/
theorem processSample_with_buffer (bigEndian : Bool) (a : MagnetometerAdaptor)
    (b : DeviceAdaptorRingBuffer) (pathId fd : Int) (r : ReadResult) (stack : List Nat) (now : Nat)
    (hb : a.magnetometerBuffer_ = some b) :
    a.processSample bigEndian pathId fd r stack now =
      ([Event.read fd sizeofMagData] ++
          (if toUnsignedInt r.returnValue < sizeofMagData then
            [Event.logShortRead (toUnsignedInt r.returnValue)] else []) ++
          (if (loadMagData bigEndian (readInto stack r)).valid = 0 then [Event.logInvalidSample]
            else []) ++
          [Event.logReading (loadMagData bigEndian (readInto stack r)).x
            (loadMagData bigEndian (readInto stack r)).y
            (loadMagData bigEndian (readInto stack r)).z] ++
          [Event.nextSlot, Event.getTimeStamp, Event.storeTimestamp now,
            Event.storeX (loadMagData bigEndian (readInto stack r)).x,
            Event.storeY (loadMagData bigEndian (readInto stack r)).y,
            Event.storeZ (loadMagData bigEndian (readInto stack r)).z, Event.commit,
            Event.wakeUpReaders],
        some { a with magnetometerBuffer_ := some ((b.store b.nextSlot
          { timestamp_ := now, x_ := (loadMagData bigEndian (readInto stack r)).x,
            y_ := (loadMagData bigEndian (readInto stack r)).y,
            z_ := (loadMagData bigEndian (readInto stack r)).z }).commit) }) := by
  simp [MagnetometerAdaptor.processSample, hb]

/-- The trace of `processSample` when the buffer pointer was never assigned:
the same calls, and no defined resulting state. -/
theorem processSample_without_buffer (bigEndian : Bool) (a : MagnetometerAdaptor)
    (pathId fd : Int) (r : ReadResult) (stack : List Nat) (now : Nat)
    (hb : a.magnetometerBuffer_ = none) :
    a.processSample bigEndian pathId fd r stack now =
      ([Event.read fd sizeofMagData] ++
          (if toUnsignedInt r.returnValue < sizeofMagData then
            [Event.logShortRead (toUnsignedInt r.returnValue)] else []) ++
          (if (loadMagData bigEndian (readInto stack r)).valid = 0 then [Event.logInvalidSample]
            else []) ++
          [Event.logReading (loadMagData bigEndian (readInto stack r)).x
            (loadMagData bigEndian (readInto stack r)).y
            (loadMagData bigEndian (readInto stack r)).z] ++
          [Event.nextSlot, Event.getTimeStamp, Event.storeTimestamp now,
            Event.storeX (loadMagData bigEndian (readInto stack r)).x,
            Event.storeY (loadMagData bigEndian (readInto stack r)).y,
            Event.storeZ (loadMagData bigEndian (readInto stack r)).z, Event.commit,
            Event.wakeUpReaders], none) := by
  simp [MagnetometerAdaptor.processSample, hb]

/-- C3: for every record (x, y, z, valid) delivered by a full 8-byte read, with
any value of `valid` (0 included), `processSample` on an Active adaptor stores
into the acquired slot a sample whose x_, y_, z_ are exactly the record's
signed 16-bit x, y, z, and the stores it issues carry exactly those values. -/
theorem processSample_copies_axes (bigEndian : Bool) (a : MagnetometerAdaptor) (pathId fd : Int)
    (d : ak8974_data) (stack : List Nat) (now : Nat)
    (hact : a.isActive = true) (hcon : a.consistent = true)
    (hx : -32768 ≤ d.x ∧ d.x < 32768) (hy : -32768 ≤ d.y ∧ d.y < 32768)
    (hz : -32768 ≤ d.z ∧ d.z < 32768) (hv : d.valid < 65536) :
    ∃ b a' b' s, a.magnetometerBuffer_ = some b ∧
      (a.processSample bigEndian pathId fd (ReadResult.delivered (recordBytes bigEndian d))
        stack now).2 = some a' ∧
      a'.magnetometerBuffer_ = some b' ∧ b'.buffer_[b.nextSlot]? = some s ∧
      s.x_ = d.x ∧ s.y_ = d.y ∧ s.z_ = d.z ∧
      (a.processSample bigEndian pathId fd (ReadResult.delivered (recordBytes bigEndian d))
        stack now).1.filter Event.isPublication =
        [Event.nextSlot, Event.storeTimestamp now, Event.storeX d.x, Event.storeY d.y,
          Event.storeZ d.z, Event.commit, Event.wakeUpReaders] := by
  obtain ⟨b, hb, hpos, hlen⟩ := active_has_buffer a hact hcon
  have hload : loadMagData bigEndian
      (readInto stack (ReadResult.delivered (recordBytes bigEndian d))) = d := by
    rw [readInto_full]
    exact loadMagData_recordBytes bigEndian d _ hx hy hz hv
  have hslot : b.nextSlot < b.buffer_.length := by
    rw [hlen]
    exact Nat.mod_lt _ hpos
  rw [processSample_with_buffer bigEndian a b pathId fd _ stack now hb, hload]
  refine ⟨b, _, _, ⟨now, d.x, d.y, d.z⟩, hb, rfl, rfl, ?_, rfl, rfl, rfl, ?_⟩
  · simp [DeviceAdaptorRingBuffer.commit, DeviceAdaptorRingBuffer.store, hslot]
  · by_cases h0 : d.valid = 0 <;>
      by_cases hs : toUnsignedInt
        (ReadResult.delivered (recordBytes bigEndian d)).returnValue < sizeofMagData <;>
      simp [List.filter, Event.isPublication, h0, hs]

/-- Witness for C3: the adaptor constructed on `/dev/ak8975`, little-endian
record (-1, 258, -32768) with validity flag 0. -/
theorem processSample_copies_axes_witness :
    ∃ a' b' s,
      (MagnetometerAdaptor.processSample false (MagnetometerAdaptor.ctor cfg8975 fun _ => true).1 0 3
        (ReadResult.delivered [255, 255, 2, 1, 0, 128, 0, 0]) [] 77).2 = some a' ∧
      a'.magnetometerBuffer_ = some b' ∧ b'.buffer_[0]? = some s ∧
      s.x_ = -1 ∧ s.y_ = 258 ∧ s.z_ = -32768 := by
  obtain ⟨b, a', b', s, hb, h1, h2, h3, h4, h5, h6, -⟩ :=
    processSample_copies_axes false (MagnetometerAdaptor.ctor cfg8975 fun _ => true).1 0 3
      ⟨-1, 258, -32768, 0⟩ [] 77 (by decide) (by decide) (by decide) (by decide) (by decide)
      (by decide)
  have hb0 : b = DeviceAdaptorRingBuffer.create 1 := by
    have : (MagnetometerAdaptor.ctor cfg8975 fun _ => true).1.magnetometerBuffer_ =
        some (DeviceAdaptorRingBuffer.create 1) := by decide
    rw [this] at hb
    exact (Option.some.inj hb).symm
  subst hb0
  exact ⟨a', b', s, h1, h2, h3, h4, h5, h6⟩

/-- C4: on an Active adaptor, for every outcome of the device read (full,
short or failed), `processSample` completes, and apart from log lines its trace
is exactly: one read, one nextSlot, the timestamp taken, the four stores into
the slot, one commit, one wakeUpReaders, in that order.  Afterwards the
acquired slot holds the timestamp taken after the read and the three axis
values of `mag_data`, every other slot is as before, the commit sequence has
advanced by one, and the adaptor is still Active with the same driver path and
overflow limit. -/
theorem processSample_trace (bigEndian : Bool) (a : MagnetometerAdaptor) (pathId fd : Int)
    (r : ReadResult) (stack : List Nat) (now : Nat)
    (hact : a.isActive = true) (hcon : a.consistent = true) :
    ∃ b a' b', a.magnetometerBuffer_ = some b ∧
      (a.processSample bigEndian pathId fd r stack now).2 = some a' ∧
      (a.processSample bigEndian pathId fd r stack now).1.filter (fun e => !e.isLog) =
        [Event.read fd sizeofMagData, Event.nextSlot, Event.getTimeStamp,
          Event.storeTimestamp now,
          Event.storeX (loadMagData bigEndian (readInto stack r)).x,
          Event.storeY (loadMagData bigEndian (readInto stack r)).y,
          Event.storeZ (loadMagData bigEndian (readInto stack r)).z,
          Event.commit, Event.wakeUpReaders] ∧
      a'.magnetometerBuffer_ = some b' ∧ b'.writeCount_ = b.writeCount_ + 1 ∧
      a'.isActive = true ∧ a'.consistent = true ∧
      b'.buffer_[b.nextSlot]? = some
        { timestamp_ := now, x_ := (loadMagData bigEndian (readInto stack r)).x,
          y_ := (loadMagData bigEndian (readInto stack r)).y,
          z_ := (loadMagData bigEndian (readInto stack r)).z } ∧
      (∀ i, i ≠ b.nextSlot → b'.buffer_[i]? = b.buffer_[i]?) ∧
      b'.bufferSize_ = b.bufferSize_ ∧ b'.buffer_.length = b.buffer_.length ∧
      a'.driverHandle_ = a.driverHandle_ ∧ a'.overflowLimit_ = a.overflowLimit_ := by
  obtain ⟨b, hb, hpos, hlen⟩ := active_has_buffer a hact hcon
  have hslot : b.nextSlot < b.buffer_.length := by
    rw [hlen]
    exact Nat.mod_lt _ hpos
  rw [processSample_with_buffer bigEndian a b pathId fd r stack now hb]
  refine ⟨b, _, _, hb, rfl, ?_, rfl, rfl, hact, ?_, ?_, ?_, rfl, ?_, rfl, rfl⟩
  · by_cases h0 : (loadMagData bigEndian (readInto stack r)).valid = 0 <;>
      by_cases hs : toUnsignedInt r.returnValue < sizeofMagData <;>
      simp [List.filter, Event.isLog, h0, hs]
  · unfold MagnetometerAdaptor.isActive at hact
    simp [MagnetometerAdaptor.consistent, DeviceAdaptorRingBuffer.commit,
      DeviceAdaptorRingBuffer.store, hpos, hlen]
    simpa using hact
  · simp [DeviceAdaptorRingBuffer.commit, DeviceAdaptorRingBuffer.store, hslot]
  · intro i hi
    simp only [DeviceAdaptorRingBuffer.commit, DeviceAdaptorRingBuffer.store]
    exact List.getElem?_set_ne (Ne.symm hi)
  · simp [DeviceAdaptorRingBuffer.commit, DeviceAdaptorRingBuffer.store]

/-- Witness for C4: the adaptor constructed on `/dev/ak8974n0`, failed read
over stack bytes that spell (1, 2, 3), clock value 9. -/
theorem processSample_trace_witness :
    (MagnetometerAdaptor.processSample false (MagnetometerAdaptor.ctor cfg8974 fun _ => true).1 0 3
        ReadResult.failed [1, 0, 2, 0, 3, 0, 1, 0] 9).1.filter (fun e => !e.isLog) =
      [Event.read 3 8, Event.nextSlot, Event.getTimeStamp, Event.storeTimestamp 9,
        Event.storeX 1, Event.storeY 2, Event.storeZ 3, Event.commit, Event.wakeUpReaders] ∧
      ∃ a' b', (MagnetometerAdaptor.processSample false
          (MagnetometerAdaptor.ctor cfg8974 fun _ => true).1 0 3
          ReadResult.failed [1, 0, 2, 0, 3, 0, 1, 0] 9).2 = some a' ∧
        a'.magnetometerBuffer_ = some b' ∧ b'.buffer_[0]? = some ⟨9, 1, 2, 3⟩ := by
  obtain ⟨b, a', b', hb, h1, h, h2, -, -, -, h3, -⟩ :=
    processSample_trace false (MagnetometerAdaptor.ctor cfg8974 fun _ => true).1 0 3
      ReadResult.failed [1, 0, 2, 0, 3, 0, 1, 0] 9 (by decide) (by decide)
  have hb0 : b = DeviceAdaptorRingBuffer.create 1 := by
    have : (MagnetometerAdaptor.ctor cfg8974 fun _ => true).1.magnetometerBuffer_ =
        some (DeviceAdaptorRingBuffer.create 1) := by decide
    rw [this] at hb
    exact (Option.some.inj hb).symm
  subst hb0
  refine ⟨?_, a', b', h1, h2, ?_⟩
  · rw [h]
    decide
  · rw [show (0 : Nat) = (DeviceAdaptorRingBuffer.create 1).nextSlot from rfl, h3]
    decide

/-- C7 (evaluation of the code): `processSample` logs the short-read warning
exactly when the read did not fail and delivered fewer than 8 bytes; after a
failed read `bytesRead` holds 4294967295 and no warning is logged. -/
theorem processSample_warning_iff (bigEndian : Bool) (a : MagnetometerAdaptor) (pathId fd : Int)
    (r : ReadResult) (stack : List Nat) (now : Nat) :
    (shortReadWarnings (a.processSample bigEndian pathId fd r stack now).1 ≠ [] ↔
        ∃ bytes, r = ReadResult.delivered bytes ∧ bytes.length < sizeofMagData) ∧
      toUnsignedInt ReadResult.failed.returnValue = 4294967295 ∧
      shortReadWarnings
        (a.processSample bigEndian pathId fd ReadResult.failed stack now).1 = [] := by
  have key : ∀ r' : ReadResult,
      shortReadWarnings (a.processSample bigEndian pathId fd r' stack now).1 =
        if toUnsignedInt r'.returnValue < sizeofMagData then [toUnsignedInt r'.returnValue]
        else [] := by
    intro r'
    cases hb : a.magnetometerBuffer_ with
    | none =>
      rw [processSample_without_buffer bigEndian a pathId fd r' stack now hb]
      by_cases h0 : (loadMagData bigEndian (readInto stack r')).valid = 0 <;>
        by_cases hs : toUnsignedInt r'.returnValue < sizeofMagData <;>
        simp [shortReadWarnings, h0, hs]
    | some b =>
      rw [processSample_with_buffer bigEndian a b pathId fd r' stack now hb]
      by_cases h0 : (loadMagData bigEndian (readInto stack r')).valid = 0 <;>
        by_cases hs : toUnsignedInt r'.returnValue < sizeofMagData <;>
        simp [shortReadWarnings, h0, hs]
  refine ⟨?_, toUnsignedInt_failed, ?_⟩
  · rw [key r]
    cases r with
    | failed => simp [toUnsignedInt_failed, sizeofMagData]
    | delivered bytes =>
      rw [toUnsignedInt_delivered]
      simp only [sizeofMagData]
      constructor
      · intro h
        refine ⟨bytes, rfl, ?_⟩
        by_contra hc
        have : ¬ (min 8 bytes.length < 8) := by omega
        simp [this] at h
      · rintro ⟨bs, hbs, hlt⟩
        cases hbs
        have : min 8 bytes.length < 8 := by omega
        simp [this]
  · rw [key ReadResult.failed]
    simp [toUnsignedInt_failed, sizeofMagData]

/-- The call `setInterval` makes exactly one call, to the base poller. -/
theorem setInterval_events (sysfs : Nat → Int → Bool) (a : MagnetometerAdaptor) (v : Nat)
    (s : Int) : ∃ f, (a.setInterval sysfs v s).2 = [Event.sysfsSetInterval f s] := by
  unfold MagnetometerAdaptor.setInterval
  split
  · exact ⟨_, rfl⟩
  · exact ⟨_, rfl⟩

/-- Unfolding of the specification of the overflow limit along the first
operation. -/
theorem spec_overflowLimitAfter_cons (d : Int) (op : Op) (ops : List Op) :
    spec_overflowLimitAfter d (op :: ops) =
      spec_overflowLimitAfter (op.overflowLimitArg.getD d) ops := by
  unfold spec_overflowLimitAfter
  cases op <;> simp [Op.overflowLimitArg, List.filterMap_cons, List.getLast?_cons]

/-- The state left by `processSample` on a consistent Active adaptor is
consistent, with the same driver path and overflow limit. -/
theorem processSample_state (bigEndian : Bool) (a : MagnetometerAdaptor) (pathId fd : Int)
    (r : ReadResult) (stack : List Nat) (now : Nat)
    (hact : a.isActive = true) (hcon : a.consistent = true) :
    ∃ a', (a.processSample bigEndian pathId fd r stack now).2 = some a' ∧
      a'.driverHandle_ = a.driverHandle_ ∧ a'.overflowLimit_ = a.overflowLimit_ ∧
      a'.consistent = true ∧
      advertisedDataRanges (a.processSample bigEndian pathId fd r stack now).1 = [] := by
  obtain ⟨b, hb, hpos, hlen⟩ := active_has_buffer a hact hcon
  rw [processSample_with_buffer bigEndian a b pathId fd r stack now hb]
  refine ⟨_, rfl, rfl, rfl, ?_, ?_⟩
  · unfold MagnetometerAdaptor.isActive at hact
    simp [MagnetometerAdaptor.consistent, DeviceAdaptorRingBuffer.commit,
      DeviceAdaptorRingBuffer.store, hpos, hlen]
    simpa using hact
  · by_cases h0 : (loadMagData bigEndian (readInto stack r)).valid = 0 <;>
      by_cases hs : toUnsignedInt r.returnValue < sizeofMagData <;>
      simp [advertisedDataRanges, h0, hs]

/-- Every sequence of operations that the code defines (any sequence on an
Active adaptor, sequences without `processSample` otherwise) runs to the end,
keeps the driver path and consistency, advertises no data range and leaves the
overflow limit given by the specification. -/
theorem run_invariant (bigEndian : Bool) (sysfs : Nat → Int → Bool) (ops : List Op) :
    ∀ a : MagnetometerAdaptor, a.consistent = true →
      (a.isActive = true ∨ ∀ op ∈ ops, op.isProcessSample = false) →
      ∃ a', (run bigEndian sysfs a ops).2 = some a' ∧ a'.driverHandle_ = a.driverHandle_ ∧
        a'.consistent = true ∧ advertisedDataRanges (run bigEndian sysfs a ops).1 = [] ∧
        a'.overflowLimit_ = spec_overflowLimitAfter a.overflowLimit_ ops := by
  induction ops with
  | nil =>
    intro a hcon _
    exact ⟨a, rfl, rfl, hcon, rfl, rfl⟩
  | cons op ops ih =>
    intro a hcon h
    rw [spec_overflowLimitAfter_cons]
    have hstep : ∃ a1, (step bigEndian sysfs a op).2 = some a1 ∧
        a1.driverHandle_ = a.driverHandle_ ∧ a1.consistent = true ∧
        advertisedDataRanges (step bigEndian sysfs a op).1 = [] ∧
        a1.overflowLimit_ = op.overflowLimitArg.getD a.overflowLimit_ := by
      cases op with
      | processSample pathId fd r stack now =>
        have hact : a.isActive = true := by
          rcases h with h | h
          · exact h
          · have := h _ (List.mem_cons_self _ _)
            simp [Op.isProcessSample] at this
        obtain ⟨a1, h1, h2, h3, h4, h5⟩ :=
          processSample_state bigEndian a pathId fd r stack now hact hcon
        exact ⟨a1, h1, h2, h4, h5, h3⟩
      | setInterval v s =>
        obtain ⟨f, hf⟩ := setInterval_events sysfs a v s
        refine ⟨a, rfl, rfl, hcon, ?_, rfl⟩
        simp [step, hf, advertisedDataRanges]
      | setOverflowLimit l =>
        refine ⟨a.setOverflowLimit l, rfl, rfl, ?_, rfl, rfl⟩
        simpa [MagnetometerAdaptor.consistent, MagnetometerAdaptor.setOverflowLimit] using hcon
      | overflowLimit => exact ⟨a, rfl, rfl, hcon, rfl, rfl⟩
    obtain ⟨a1, h1, h2, h3, h4, h5⟩ := hstep
    have hnext : a1.isActive = true ∨ ∀ op' ∈ ops, op'.isProcessSample = false := by
      rcases h with h | h
      · left
        unfold MagnetometerAdaptor.isActive at *
        rw [h2]
        exact h
      · right
        intro op' hop'
        exact h op' (List.mem_cons_of_mem _ hop')
    obtain ⟨a', g1, g2, g3, g4, g5⟩ := ih a1 h3 hnext
    have hrun : run bigEndian sysfs a (op :: ops) =
        ((step bigEndian sysfs a op).1 ++ (run bigEndian sysfs a1 ops).1,
          (run bigEndian sysfs a1 ops).2) := by
      rw [run]
      generalize step bigEndian sysfs a op = st at h1
      obtain ⟨es, o⟩ := st
      simp only at h1
      subst h1
      rfl
    rw [hrun]
    refine ⟨a', g1, g2.trans h2, g3, ?_, ?_⟩
    · simp only [advertisedDataRanges, List.filterMap_append] at *
      rw [h4, g4]
      rfl
    · rw [g5, h5]

/-- Construction establishes the consistency relation. -/
theorem ctor_consistent (cfg : Config) (fileExists : String → Bool) :
    (MagnetometerAdaptor.ctor cfg fileExists).1.consistent = true := by
  unfold MagnetometerAdaptor.ctor
  cases he : QString.isEmpty (MagnetometerAdaptor.getDriverHandle cfg fileExists) <;>
    simp [MagnetometerAdaptor.ctorWith, MagnetometerAdaptor.consistent,
      DeviceAdaptorRingBuffer.create, he]

/-- Without a `setOverflowLimit` call the specified limit is the default. -/
theorem spec_overflowLimitAfter_default (d : Int) (ops : List Op)
    (h : ∀ op ∈ ops, op.overflowLimitArg = none) : spec_overflowLimitAfter d ops = d := by
  have : ops.filterMap Op.overflowLimitArg = [] := by
    rw [List.filterMap_eq_nil_iff]
    exact h
  simp [spec_overflowLimitAfter, this]

/-- After a `setOverflowLimit l` that no later call overrides, the specified
limit is `l`. -/
theorem spec_overflowLimitAfter_last (d l : Int) (before after : List Op)
    (h : ∀ op ∈ after, op.overflowLimitArg = none) :
    spec_overflowLimitAfter d (before ++ [Op.setOverflowLimit l] ++ after) = l := by
  have : after.filterMap Op.overflowLimitArg = [] := by
    rw [List.filterMap_eq_nil_iff]
    exact h
  simp [spec_overflowLimitAfter, List.filterMap_append, this, Op.overflowLimitArg]

/-- C10: every sequence of operations after construction (on an unresolved
adaptor: every sequence without `processSample`, which is undefined there) runs
to the end and leaves the driver path, hence the compensation decision of
`setInterval`, and the advertised data ranges unchanged; `overflowLimit()` then
returns the construction default if `setOverflowLimit` was never called and
otherwise the argument of the most recent call, whatever integer it is. -/
theorem operations_preserve_configuration (bigEndian : Bool) (sysfs : Nat → Int → Bool)
    (cfg : Config) (fileExists : String → Bool) (ops : List Op)
    (h : (MagnetometerAdaptor.ctor cfg fileExists).1.isActive = true ∨
      ∀ op ∈ ops, op.isProcessSample = false) :
    ∃ a', (run bigEndian sysfs (MagnetometerAdaptor.ctor cfg fileExists).1 ops).2 = some a' ∧
      a'.driverHandle_ = MagnetometerAdaptor.getDriverHandle cfg fileExists ∧
      (∀ (sysfs' : Nat → Int → Bool) (v : Nat) (s : Int), a'.setInterval sysfs' v s =
        (MagnetometerAdaptor.ctor cfg fileExists).1.setInterval sysfs' v s) ∧
      advertisedDataRanges ((MagnetometerAdaptor.ctor cfg fileExists).2 ++
          (run bigEndian sysfs (MagnetometerAdaptor.ctor cfg fileExists).1 ops).1) =
        advertisedDataRanges (MagnetometerAdaptor.ctor cfg fileExists).2 ∧
      a'.overflowLimit =
        spec_overflowLimitAfter (MagnetometerAdaptor.ctor cfg fileExists).1.overflowLimit ops ∧
      ((∀ op ∈ ops, op.overflowLimitArg = none) →
        a'.overflowLimit = (MagnetometerAdaptor.ctor cfg fileExists).1.overflowLimit) ∧
      (∀ (l : Int) (before after : List Op), ops = before ++ [Op.setOverflowLimit l] ++ after →
        (∀ op ∈ after, op.overflowLimitArg = none) → a'.overflowLimit = l) := by
  obtain ⟨a', h1, h2, -, h4, h5⟩ := run_invariant bigEndian sysfs ops
    (MagnetometerAdaptor.ctor cfg fileExists).1 (ctor_consistent cfg fileExists) h
  refine ⟨a', h1, h2, ?_, ?_, h5, ?_, ?_⟩
  · intro sysfs' v s
    unfold MagnetometerAdaptor.setInterval
    rw [h2]
  · simp only [advertisedDataRanges, List.filterMap_append] at *
    rw [h4, List.append_nil]
  · intro hnone
    unfold MagnetometerAdaptor.overflowLimit
    rw [h5, spec_overflowLimitAfter_default _ _ hnone]
  · intro l before after hops hnone
    unfold MagnetometerAdaptor.overflowLimit
    rw [h5, hops, spec_overflowLimitAfter_last _ _ _ _ hnone]

/-- Witness for C10: the adaptor constructed on `/dev/ak8975`, then
`setOverflowLimit(-5)`, a short read, `setInterval(100, 1)`, `overflowLimit()`. -/
theorem operations_preserve_configuration_witness :
    ∃ a', (run false sysfsAccept (MagnetometerAdaptor.ctor cfg8975 fun _ => true).1
        [Op.setOverflowLimit (-5), Op.processSample 0 3 (ReadResult.delivered [1, 2, 3]) [] 4,
          Op.setInterval 100 1, Op.overflowLimit]).2 = some a' ∧
      a'.driverHandle_ = "/dev/ak8975" ∧ a'.overflowLimit = -5 := by
  obtain ⟨a', h1, h2, -, -, -, -, h7⟩ := operations_preserve_configuration false sysfsAccept
    cfg8975 (fun _ => true)
    [Op.setOverflowLimit (-5), Op.processSample 0 3 (ReadResult.delivered [1, 2, 3]) [] 4,
      Op.setInterval 100 1, Op.overflowLimit] (Or.inl (by decide))
  refine ⟨a', h1, ?_, ?_⟩
  · rw [h2]
    decide
  · exact h7 (-5) [] _ rfl (by decide)

/-- The calls forwarded to the base poller are neither registrations nor ring
buffer accesses. -/
theorem forwardedCall_filters (ops : List Op) :
    (ops.filterMap Op.forwardedCall).filter Event.isRegistration = [] ∧
      (ops.filterMap Op.forwardedCall).filter Event.isPublication = [] := by
  induction ops with
  | nil => exact ⟨rfl, rfl⟩
  | cons op ops ih =>
    cases op <;>
      simp [List.filterMap_cons, Op.forwardedCall, List.filter, Event.isRegistration,
        Event.isPublication, ih.1, ih.2]

/-- On an adaptor without driver path and buffer, a sequence of `setInterval`,
`setOverflowLimit` and `overflowLimit` calls runs to the end; its trace is
exactly the requested intervals forwarded unchanged to the base poller, and the
adaptor is again without driver path and buffer. -/
theorem run_unresolved (bigEndian : Bool) (sysfs : Nat → Int → Bool) (ops : List Op) :
    ∀ a : MagnetometerAdaptor, a.driverHandle_ = "" → a.magnetometerBuffer_ = none →
      (∀ op ∈ ops, op.isProcessSample = false) →
      ∃ a', run bigEndian sysfs a ops = (ops.filterMap Op.forwardedCall, some a') ∧
        a'.driverHandle_ = "" ∧ a'.magnetometerBuffer_ = none := by
  induction ops with
  | nil =>
    intro a hd hb _
    exact ⟨a, rfl, hd, hb⟩
  | cons op ops ih =>
    intro a hd hb hall
    have hrest : ∀ op' ∈ ops, op'.isProcessSample = false :=
      fun op' hop' => hall op' (List.mem_cons_of_mem _ hop')
    cases op with
    | processSample pathId fd r stack now =>
      have := hall _ (List.mem_cons_self _ _)
      simp [Op.isProcessSample] at this
    | setInterval v s =>
      have hc : QString.contains a.driverHandle_ "8975" = false := by
        rw [hd]
        decide
      have hf : (a.setInterval sysfs v s).2 = [Event.sysfsSetInterval v s] := by
        simp [MagnetometerAdaptor.setInterval, hc]
      obtain ⟨a', h1, h2, h3⟩ := ih a hd hb hrest
      refine ⟨a', ?_, h2, h3⟩
      rw [run, step, hf]
      simp only [h1, List.filterMap_cons, Op.forwardedCall]
      rfl
    | setOverflowLimit l =>
      obtain ⟨a', h1, h2, h3⟩ := ih (a.setOverflowLimit l) hd hb hrest
      refine ⟨a', ?_, h2, h3⟩
      rw [run, step]
      simp only [h1, List.filterMap_cons, Op.forwardedCall]
      rfl
    | overflowLimit =>
      obtain ⟨a', h1, h2, h3⟩ := ih a hd hb hrest
      refine ⟨a', ?_, h2, h3⟩
      rw [run, step]
      simp only [h1, List.filterMap_cons, Op.forwardedCall]
      rfl

/-- C8 as stated fails: on the unresolved adaptor (empty driver path, no
buffer) `setInterval(100, 7)` does forward 100 to the base poller, and
`setOverflowLimit(5)` does change the adaptor state. -/
theorem unresolved_operations_not_noops :
    (MagnetometerAdaptor.ctor cfgNone fun _ => false).1.driverHandle_ = "" ∧
      (MagnetometerAdaptor.ctor cfgNone fun _ => false).1.magnetometerBuffer_ = none ∧
      forwardedIntervals ((MagnetometerAdaptor.ctor cfgNone fun _ => false).1.setInterval
        sysfsAccept 100 7).2 = [(100, 7)] ∧
      (MagnetometerAdaptor.ctor cfgNone fun _ => false).1.setOverflowLimit 5 ≠
        (MagnetometerAdaptor.ctor cfgNone fun _ => false).1 ∧
      ¬ (∀ (v : Nat) (s : Int) (l : Int),
          forwardedIntervals ((MagnetometerAdaptor.ctor cfgNone fun _ => false).1.setInterval
            sysfsAccept v s).2 = [] ∧
          (MagnetometerAdaptor.ctor cfgNone fun _ => false).1.setOverflowLimit l =
            (MagnetometerAdaptor.ctor cfgNone fun _ => false).1) := by
  refine ⟨by decide, by decide, by decide, by decide, ?_⟩
  intro h
  exact absurd (h 100 7 5).1 (by decide)

/-- C8 (amended): when no device path is resolved, construction adds no path,
creates no buffer and registers no sensor, and every later sequence of
`setInterval`, `setOverflowLimit` and `overflowLimit` calls runs to the end
without registering anything, touching a ring buffer or making the adaptor
Active; but `setInterval` still forwards each requested value unchanged to the
base poller (these calls are the whole trace) and `setOverflowLimit` still
stores its argument. -/
theorem unresolved_adaptor_stays_unresolved (bigEndian : Bool) (sysfs : Nat → Int → Bool)
    (cfg : Config) (fileExists : String → Bool) (ops : List Op)
    (h : MagnetometerAdaptor.getDriverHandle cfg fileExists = "")
    (hops : ∀ op ∈ ops, op.isProcessSample = false) :
    (MagnetometerAdaptor.ctor cfg fileExists).1.magnetometerBuffer_ = none ∧
      (MagnetometerAdaptor.ctor cfg fileExists).1.isActive = false ∧
      (MagnetometerAdaptor.ctor cfg fileExists).2.filter Event.isRegistration = [] ∧
      ∃ a', run bigEndian sysfs (MagnetometerAdaptor.ctor cfg fileExists).1 ops =
          (ops.filterMap Op.forwardedCall, some a') ∧
        (run bigEndian sysfs (MagnetometerAdaptor.ctor cfg fileExists).1 ops).1.filter
          Event.isRegistration = [] ∧
        (run bigEndian sysfs (MagnetometerAdaptor.ctor cfg fileExists).1 ops).1.filter
          Event.isPublication = [] ∧
        a'.isActive = false ∧ a'.magnetometerBuffer_ = none ∧
        a'.overflowLimit =
          spec_overflowLimitAfter (MagnetometerAdaptor.ctor cfg fileExists).1.overflowLimit ops ∧
        (∀ (v : Nat) (s : Int),
          a'.setInterval sysfs v s = (sysfs v s, [Event.sysfsSetInterval v s])) ∧
        (∀ l : Int, (a'.setOverflowLimit l).overflowLimit = l ∧
          (a'.setOverflowLimit l).isActive = false ∧
          (a'.setOverflowLimit l).magnetometerBuffer_ = none) := by
  have hd : (MagnetometerAdaptor.ctor cfg fileExists).1.driverHandle_ = "" := h
  have hb : (MagnetometerAdaptor.ctor cfg fileExists).1.magnetometerBuffer_ = none := by
    simp [MagnetometerAdaptor.ctor, MagnetometerAdaptor.ctorWith, h, QString.isEmpty]
  obtain ⟨a', hrun, hd', hb'⟩ := run_unresolved bigEndian sysfs ops _ hd hb hops
  obtain ⟨a2, g1, -, -, -, g5⟩ := run_invariant bigEndian sysfs ops
    (MagnetometerAdaptor.ctor cfg fileExists).1 (ctor_consistent cfg fileExists) (Or.inr hops)
  have ha2 : a2 = a' := by
    rw [hrun] at g1
    exact (Option.some.inj g1).symm
  subst ha2
  have hact : a2.isActive = false := by
    simp [MagnetometerAdaptor.isActive, hd', QString.isEmpty]
  refine ⟨hb, ?_, ?_, a2, hrun, ?_, ?_, hact, hb', g5, ?_, ?_⟩
  · simp [MagnetometerAdaptor.isActive, hd, QString.isEmpty]
  · simp [MagnetometerAdaptor.ctor, MagnetometerAdaptor.ctorWith, h, QString.isEmpty,
      QString.contains, containsChars, List.filter, Event.isRegistration, ranges]
  · rw [hrun]
    exact (forwardedCall_filters ops).1
  · rw [hrun]
    exact (forwardedCall_filters ops).2
  · intro v s
    have hc : QString.contains a2.driverHandle_ "8975" = false := by
      rw [hd']
      decide
    simp [MagnetometerAdaptor.setInterval, hc]
  · intro l
    exact ⟨rfl, hact, hb'⟩

/-- Witness for C8 (amended): the empty configuration, then
`setInterval(100, 7)` and `setOverflowLimit(5)`. -/
theorem unresolved_adaptor_stays_unresolved_witness :
    MagnetometerAdaptor.getDriverHandle cfgNone (fun _ => false) = "" ∧
      ∃ a', run false sysfsAccept (MagnetometerAdaptor.ctor cfgNone fun _ => false).1
          [Op.setInterval 100 7, Op.setOverflowLimit 5] =
            ([Event.sysfsSetInterval 100 7], some a') ∧
        a'.isActive = false ∧ a'.overflowLimit = 5 := by
  obtain ⟨-, -, -, a', h1, -, -, h2, -, h3, -⟩ :=
    unresolved_adaptor_stays_unresolved false sysfsAccept cfgNone (fun _ => false)
      [Op.setInterval 100 7, Op.setOverflowLimit 5] (by decide) (by decide)
  exact ⟨by decide, a', h1, h2, by rw [h3]; decide⟩

end Sensorfw
